import Mathlib

/-!
Verification of the translator-voice-en-ht data-collection service.

The repository contains three overlapping implementations of the same five
endpoints:

* `netlify/functions/asr-upload.js` and `netlify/functions/samples-link.js`
  (first document): temporary Netlify functions that validate input and
  return mock responses without touching the filesystem;
* the enhanced HTTP server embedded as the second document of
  `netlify/functions/samples-link.js`: partitioned storage layout
  (`data/audio/en`, `data/audio/ht`, `data/pairs`), a `MAX_FILE_SIZE`
  body cap, consent checking;
* `server.js`: an earlier draft with a flat `data/` directory, no body
  size cap and no consent checking.

This file shallowly embeds the pure decision logic of those handlers:
request payloads become structures, filesystem writes become explicit
lists of written files carried in the result, and the generated UUID and
timestamp are passed in as parameters.  Filesystem failures (`writeFileSync`
throwing) are outside the pure model; each handler models the code path in
which the OS-level operations themselves succeed.
-/

namespace TranslatorVoice

/-- Predicate `listStartsWith p l` is true when `p` is an initial segment of `l`. -/
def listStartsWith : List Char → List Char → Bool
  | [], _ => true
  | _ :: _, [] => false
  | p :: ps, c :: cs => p == c && listStartsWith ps cs

/-- Predicate `listHasSub pat l` is true when `pat` occurs contiguously inside `l`;
models JavaScript `String.prototype.includes`. -/
def listHasSub (pat : List Char) : List Char → Bool
  | [] => listStartsWith pat []
  | c :: cs => listStartsWith pat (c :: cs) || listHasSub pat cs

/-- JavaScript `s.includes(pat)`. -/
def strIncludes (s pat : String) : Bool :=
  listHasSub pat.data s.data

/-- JavaScript `s.endsWith(suffix)`, via reversed character lists. -/
def strEndsWith (s suffix : String) : Bool :=
  listStartsWith suffix.data.reverse s.data.reverse

/-- ASCII lower-casing of a string; models JavaScript `toLowerCase` on the
ASCII inputs the service deals with. -/
def jsToLower (s : String) : String :=
  String.mk (s.data.map Char.toLower)

/-- JavaScript truthiness of a string: the empty string is falsy. -/
def jsFalsy (s : String) : Bool :=
  s.data.isEmpty

/-- JavaScript truthiness of a possibly-absent string (`undefined` and `''`
are falsy). -/
def jsFalsyOpt : Option String → Bool
  | none => true
  | some s => jsFalsy s

/-- JavaScript `v || dflt` for a possibly-absent string. -/
def jsOrDefault (v : Option String) (dflt : String) : String :=
  match v with
  | none => dflt
  | some s => if jsFalsy s then dflt else s

/-- JavaScript truthiness of a possibly-absent boolean (`consent` field). -/
def jsTruthyBool : Option Bool → Bool
  | some true => true
  | _ => false

/-- Function `extFromContentType` from both `server.js` (lines 36-43) and the
enhanced server in `samples-link.js` (lines 152-159): naive mapping from a
Content-Type header to a file extension by case-insensitive substring
matching. -/
def extFromContentType (ct : String) : String :=
  let t := jsToLower ct
  if strIncludes t "audio/webm" then ".webm"
  else if strIncludes t "audio/wav" then ".wav"
  else if strIncludes t "audio/mpeg" || strIncludes t "audio/mp3" then ".mp3"
  else if strIncludes t "audio/ogg" then ".ogg"
  else ".bin"

/-! ### Storage layout and audio ingest -/

/-- Storage partitions of the enhanced server: `data/audio/en`,
`data/audio/ht` and `data/pairs`. -/
inductive Partition where
  | en
  | ht
  | pairs
deriving DecidableEq

/-- Configured body cap: `parseInt(process.env.MAX_FILE_SIZE) || 10 * 1024 * 1024`
(default value, `samples-link.js` line 125). -/
def MAX_FILE_SIZE : Nat := 10 * 1024 * 1024

/-- Model of `readBody` of the enhanced server (`samples-link.js` lines 180-193):
accumulates chunk sizes and throws (`none`) as soon as the running total
exceeds `maxSize`; otherwise returns the total byte count. -/
def readBodyLimited (maxSize : Nat) : Nat → List Nat → Option Nat
  | total, [] => some total
  | total, c :: rest =>
    let t := total + c
    if t > maxSize then none else readBodyLimited maxSize t rest

/-- Model of `readBody` of `server.js` (lines 66-70): concatenates every chunk with
no size limit; returns the total byte count. -/
def readBodyUnbounded (chunks : List Nat) : Nat :=
  chunks.sum

/-- An incoming `POST /api/asr/...` request: `lang` path segment
(`parts[3]`), body chunk sizes, `Content-Type` header, client address and
`User-Agent` header. -/
structure AsrRequest where
  lang : String
  chunks : List Nat
  contentType : Option String
  ip : String
  userAgent : Option String
deriving DecidableEq

/-- The sidecar metadata object built by the enhanced server's ASR handler
(`samples-link.js` lines 274-289). -/
structure AudioMeta where
  kind : String
  id : String
  lang : String
  createdAt : String
  ip : String
  userAgent : String
  contentType : String
  bytes : Nat
  audioFile : String
  transcript : String
  codec : String
  sr : Option Nat
  duration_s : Option Nat
  domain : List String
deriving DecidableEq

/-- The sidecar metadata object built by `server.js` (lines 129-141); it has
a `notes` field instead of `codec`/`sr`/`duration_s`/`domain`. -/
structure ServerAudioMeta where
  kind : String
  id : String
  lang : String
  createdAt : String
  ip : String
  userAgent : String
  contentType : String
  bytes : Nat
  audioFile : String
  transcript : String
  notes : String
deriving DecidableEq

/-- Contents of a file written by a handler. -/
inductive FileContent where
  | blob (bytes : Nat)
  | audioMeta (m : AudioMeta)
  | flatAudio (m : ServerAudioMeta)
deriving DecidableEq

/-- A file written into a partition of the enhanced server's layout. -/
structure WrittenFile where
  part : Partition
  name : String
  content : FileContent
deriving DecidableEq

/-- A file written into the flat `data/` directory of `server.js`. -/
structure FlatFile where
  name : String
  content : FileContent
deriving DecidableEq

/-- Result of the enhanced server's ASR handler: HTTP status, `ok` flag,
the metadata spread into the 200 response body, and the files written. -/
structure AsrResponse where
  status : Nat
  ok : Bool
  meta : Option AudioMeta
  written : List WrittenFile
deriving DecidableEq

/-- Result of `server.js`'s ASR handler. -/
structure ServerAsrResponse where
  status : Nat
  ok : Bool
  meta : Option ServerAudioMeta
  written : List FlatFile
deriving DecidableEq

/-- Handler `POST /api/asr/:lang` of the enhanced server (`samples-link.js` lines
254-299).  `id` is the generated `randomUUID()` and `now` the ISO
timestamp.  Note the handler performs no language validation: the path
segment is lower-cased, an empty segment defaults to `'en'`, and any value
other than `'ht'` selects the `en` partition.  A `readBody` overflow is the
only failure inside the pure model (caught as a 500 with nothing written,
since the throw happens before either `writeFileSync`). -/
def asrServer (req : AsrRequest) (id now : String) : AsrResponse :=
  let lang := jsToLower (jsOrDefault (some req.lang) "en")
  match readBodyLimited MAX_FILE_SIZE 0 req.chunks with
  | none => { status := 500, ok := false, meta := none, written := [] }
  | some bytes =>
    let contentType := jsOrDefault req.contentType "application/octet-stream"
    let ext := extFromContentType contentType
    let folder := if lang == "ht" then Partition.ht else Partition.en
    let audioName := id ++ ext
    let meta : AudioMeta := {
      kind := "audio"
      id := id
      lang := if lang == "ht" then "ht-HT" else "en-US"
      createdAt := now
      ip := req.ip
      userAgent := jsOrDefault req.userAgent ""
      contentType := contentType
      bytes := bytes
      audioFile := audioName
      transcript := if lang == "ht" then "Bonjou mond (ASR stub)"
                    else "Hello World (ASR stub)"
      codec := if ext == ".wav" then "pcm_s16le"
               else if ext == ".webm" then "opus" else "unknown"
      sr := none
      duration_s := none
      domain := [] }
    { status := 200
      ok := true
      meta := some meta
      written := [⟨folder, audioName, .blob bytes⟩,
                  ⟨folder, id ++ ".json", .audioMeta meta⟩] }

/-- Handler `POST /api/asr/:lang` of `server.js` (lines 104-152): flat layout, raw
(not lower-cased) language segment, unbounded body read, no validation. -/
def serverJsAsr (req : AsrRequest) (id now : String) : ServerAsrResponse :=
  let lang := jsOrDefault (some req.lang) "en"
  let bytes := readBodyUnbounded req.chunks
  let contentType := jsOrDefault req.contentType "application/octet-stream"
  let ext := extFromContentType contentType
  let audioName := id ++ ext
  let meta : ServerAudioMeta := {
    kind := "audio"
    id := id
    lang := lang
    createdAt := now
    ip := req.ip
    userAgent := jsOrDefault req.userAgent ""
    contentType := contentType
    bytes := bytes
    audioFile := audioName
    transcript := if lang == "ht" then "Bonjou mond (ASR stub)"
                  else "Hello World (ASR stub)"
    notes := "Replace transcript with real ASR later." }
  { status := 200
    ok := true
    meta := some meta
    written := [⟨audioName, .blob bytes⟩, ⟨id ++ ".json", .flatAudio meta⟩] }

/-- Result of the Netlify `asr-upload` function: it never touches the
filesystem (its `written` list is empty on every path). -/
structure UploadResponse where
  status : Nat
  ok : Bool
  written : List WrittenFile
deriving DecidableEq

/-- The Netlify `asr-upload.js` handler for a `POST` request (lines 33-79):
validates that the final path segment is exactly `'en'` or `'ht'`, returning
400 otherwise; on success returns a mock 200 record.  It performs no
filesystem writes on any path (the mock response body is elided here). -/
def asrUpload (lang : String) : UploadResponse :=
  if lang == "en" || lang == "ht" then
    { status := 200, ok := true, written := [] }
  else
    { status := 400, ok := false, written := [] }

/-! ### Pair linking -/

/-- A parsed `POST /api/samples/link` JSON payload.  Absent fields are
`none`; `consent` may be absent (treated as falsy by every handler that
looks at it). -/
structure LinkPayload where
  term : Option String
  category : Option String
  enText : Option String
  htText : Option String
  enAudioId : Option String
  htAudioId : Option String
  annotator : Option String
  consent : Option Bool
deriving DecidableEq

/-- One language side of a pair record. -/
structure PairSide where
  text : String
  audioRef : String
deriving DecidableEq

/-- The pair record written by the enhanced server (`samples-link.js` lines
323-333) and echoed by the Netlify function (which adds mock-only `status`
and `message` fields, elided here). -/
structure PairRecord where
  kind : String
  sampleId : String
  createdAt : String
  term : String
  category : String
  annotator : String
  consent : Bool
  en : PairSide
  ht : PairSide
deriving DecidableEq

/-- The pair record written by `server.js` (lines 191-200); it has no
`consent` field. -/
structure ServerPairRecord where
  kind : String
  sampleId : String
  createdAt : String
  term : String
  category : String
  annotator : String
  en : PairSide
  ht : PairSide
deriving DecidableEq

/-- A pair file written to disk. -/
inductive PairFileContent where
  | pairRec (r : PairRecord)
  | flatPair (r : ServerPairRecord)
deriving DecidableEq

/-- Result of a link handler: status, `ok` flag, the `missingFields` list
of the error body (`none` models JSON `undefined` / an error body without
that key), the record of the success body, and pair files written. -/
structure LinkResponse where
  status : Nat
  ok : Bool
  missingFields : Option (List String)
  record : Option PairRecord
  written : List (Partition × String × PairFileContent)
deriving DecidableEq

/-- Result of `server.js`'s link handler (flat directory, no
`missingFields` key ever). -/
structure ServerLinkResponse where
  status : Nat
  ok : Bool
  record : Option ServerPairRecord
  written : List (String × PairFileContent)
deriving DecidableEq

/-- The `missingFields` computation of the Netlify `samples-link` function
(lines 39-42): `Object.entries({term, category, enAudioId, htAudioId})`
filtered to falsy values, mapped to the keys, in object-literal order. -/
def missingFieldsOf (p : LinkPayload) : List String :=
  (([("term", p.term), ("category", p.category),
     ("enAudioId", p.enAudioId), ("htAudioId", p.htAudioId)]
    : List (String × Option String)).filter
      (fun kv => jsFalsyOpt kv.2)).map Prod.fst

/-- The Netlify `samples-link.js` function for a `POST` request (first
document, lines 33-100): enumerates every missing required field; rejects
with 400 when any field is missing or consent is falsy (`missingFields` is
`undefined` when only consent is the problem); otherwise returns a mock 200
record without writing to the filesystem. -/
def linkNetlify (p : LinkPayload) (id now : String) : LinkResponse :=
  let missing := missingFieldsOf p
  if missing.length > 0 || !jsTruthyBool p.consent then
    { status := 400
      ok := false
      missingFields := if missing.length > 0 then some missing else none
      record := none
      written := [] }
  else
    { status := 200
      ok := true
      missingFields := none
      record := some {
        kind := "pair"
        sampleId := id
        createdAt := now
        term := jsOrDefault p.term ""
        category := jsOrDefault p.category ""
        annotator := jsOrDefault p.annotator "anonymous"
        consent := jsTruthyBool p.consent
        en := { text := jsOrDefault p.enText (jsOrDefault p.term "")
                audioRef := jsOrDefault p.enAudioId "" }
        ht := { text := jsOrDefault p.htText ""
                audioRef := jsOrDefault p.htAudioId "" } }
      written := [] }

/-- Handler `POST /api/samples/link` of the enhanced server (`samples-link.js`
lines 305-346): rejects with a single generic 400 error (no enumeration of
missing fields) when any required field is falsy or consent is falsy; on
success writes `<sampleId>.pair.json` into the pairs partition.  The
destructuring default makes an absent `annotator` `'anonymous'` while an
empty string stays empty. -/
def linkServer (p : LinkPayload) (id now : String) : LinkResponse :=
  if jsFalsyOpt p.term || jsFalsyOpt p.category || jsFalsyOpt p.enAudioId
      || jsFalsyOpt p.htAudioId || !jsTruthyBool p.consent then
    { status := 400, ok := false, missingFields := none, record := none
      written := [] }
  else
    let record : PairRecord := {
      kind := "pair"
      sampleId := id
      createdAt := now
      term := jsOrDefault p.term ""
      category := jsOrDefault p.category ""
      annotator := p.annotator.getD "anonymous"
      consent := jsTruthyBool p.consent
      en := { text := jsOrDefault p.enText (jsOrDefault p.term "")
              audioRef := jsOrDefault p.enAudioId "" }
      ht := { text := jsOrDefault p.htText ""
              audioRef := jsOrDefault p.htAudioId "" } }
    { status := 200
      ok := true
      missingFields := none
      record := some record
      written := [(Partition.pairs, id ++ ".pair.json", .pairRec record)] }

/-- Handler `POST /api/samples/link` of `server.js` (lines 166-211): validates only
the four required fields — the payload's `consent` value is never
inspected — and writes `<sampleId>.pair.json` into the flat data
directory on success. -/
def serverJsLink (p : LinkPayload) (id now : String) : ServerLinkResponse :=
  if jsFalsyOpt p.term || jsFalsyOpt p.category || jsFalsyOpt p.enAudioId
      || jsFalsyOpt p.htAudioId then
    { status := 400, ok := false, record := none, written := [] }
  else
    let record : ServerPairRecord := {
      kind := "pair"
      sampleId := id
      createdAt := now
      term := jsOrDefault p.term ""
      category := jsOrDefault p.category ""
      annotator := p.annotator.getD "anonymous"
      en := { text := jsOrDefault p.enText (jsOrDefault p.term "")
              audioRef := jsOrDefault p.enAudioId "" }
      ht := { text := jsOrDefault p.htText ""
              audioRef := jsOrDefault p.htAudioId "" } }
    { status := 200
      ok := true
      record := some record
      written := [(id ++ ".pair.json", .flatPair record)] }

/-! ### Sample listing -/

/-- A sidecar file on disk as the lister sees it: its name, its
last-modified time (`statSync(...).mtimeMs`, modelled as a `Nat`), and the
result of `JSON.parse` on its contents — `none` models a corrupt or
partially written file, and the parsed record is otherwise treated as an
opaque payload, exactly as the listing code does (it never inspects the
parsed object). -/
structure SFile where
  name : String
  mtime : Nat
  content : Option String
deriving DecidableEq

/-- The enhanced server's on-disk state as the lister sees it: the two
language partitions and the pairs partition. -/
structure Store where
  enDir : List SFile
  htDir : List SFile
  pairsDir : List SFile
deriving DecidableEq

/-- Normalisation of the `kind` query parameter, shared by both listers:
`(url.searchParams.get('kind') || 'all').toLowerCase()`. -/
def kindNorm (kindRaw : Option String) : String :=
  jsToLower (jsOrDefault kindRaw "all")

/-- File gathering of the enhanced server's `GET /api/samples` handler
(`samples-link.js` lines 354-368), for an already-normalised `kind`: audio
sidecars (`*.json`) from both language partitions when `kind` is `audio` or
`all`, pair files (`*.pair.json`) from the pairs partition when `kind` is
`pair` or `all`.  Each gathered file keeps its partition of origin. -/
def collectFor (store : Store) (kind : String) : List (Partition × SFile) :=
  (if kind == "audio" || kind == "all" then
    (store.enDir.filter (fun f => strEndsWith f.name ".json")).map
        (fun f => (Partition.en, f)) ++
      (store.htDir.filter (fun f => strEndsWith f.name ".json")).map
        (fun f => (Partition.ht, f))
  else []) ++
  (if kind == "pair" || kind == "all" then
    (store.pairsDir.filter (fun f => strEndsWith f.name ".pair.json")).map
      (fun f => (Partition.pairs, f))
  else [])

/-- File gathering of the enhanced server for a raw `kind` query value. -/
def collectFiles (store : Store) (kindRaw : Option String) :
    List (Partition × SFile) :=
  collectFor store (kindNorm kindRaw)

/-- The JavaScript `.sort((a, b) => b.m - a.m)` on stat results: sort
descending by modification time. -/
def sortByMtimeDesc {α : Type} (key : α → Nat) (l : List α) : List α :=
  List.insertionSort (fun a b => key b ≤ key a) l

/-- The shared tail of both listers: sort the gathered files newest first,
truncate to the most recent 50, parse each and silently drop parse
failures. -/
def pipelineItems {α : Type} (key : α → Nat) (content : α → Option String)
    (l : List α) : List String :=
  ((sortByMtimeDesc key l).take 50).filterMap content

/-- A `GET /api/samples` response. -/
structure ListResponse where
  status : Nat
  ok : Bool
  count : Nat
  kind : String
  items : List String
deriving DecidableEq

/-- Handler `GET /api/samples` of the enhanced server (`samples-link.js` lines
349-387): always a 200 `{ ok, count, kind, items }` body in the pure model
(the only 500 path is a filesystem failure, outside the model). -/
def listSamples (store : Store) (kindRaw : Option String) : ListResponse :=
  let items := pipelineItems (fun pf => pf.2.mtime) (fun pf => pf.2.content)
    (collectFiles store kindRaw)
  { status := 200
    ok := true
    count := items.length
    kind := kindNorm kindRaw
    items := items }

/-- File selection of `server.js`'s `GET /api/samples` handler (lines
222-227) over the flat data directory, for an already-normalised `kind`:
`audio` keeps `*.json` files that are not `*.pair.json`, `pair` keeps
`*.pair.json`, and anything else — including unrecognised kinds — keeps
every `*.json` file. -/
def serverJsSelect (files : List SFile) (kind : String) : List SFile :=
  files.filter (fun f =>
    if kind == "audio" then
      strEndsWith f.name ".json" && !strEndsWith f.name ".pair.json"
    else if kind == "pair" then
      strEndsWith f.name ".pair.json"
    else
      strEndsWith f.name ".json")

/-- Handler `GET /api/samples` of `server.js` (lines 216-251). -/
def serverJsList (files : List SFile) (kindRaw : Option String) :
    ListResponse :=
  let items := pipelineItems (fun f => f.mtime) (fun f => f.content)
    (serverJsSelect files (kindNorm kindRaw))
  { status := 200
    ok := true
    count := items.length
    kind := kindNorm kindRaw
    items := items }

/-! ### Concrete inputs used by counterexamples and witnesses -/

/-- An ingest request with an unsupported language segment `fr`. -/
def reqFr : AsrRequest :=
  { lang := "fr", chunks := [3], contentType := some "audio/webm"
    ip := "203.0.113.7", userAgent := some "TestAgent/1.0" }

/-- An ingest request whose single body chunk exceeds the 10 MiB cap by one
byte. -/
def reqOversized : AsrRequest :=
  { lang := "en", chunks := [MAX_FILE_SIZE + 1], contentType := some "audio/wav"
    ip := "203.0.113.7", userAgent := none }

/-- A link payload missing only `category`, with consent given. -/
def payloadMissingCategory : LinkPayload :=
  { term := some "Diabetes", category := none, enText := none, htText := none
    enAudioId := some "x", htAudioId := some "y", annotator := none
    consent := some true }

/-- A link payload with all four required fields valid and `consent`
absent. -/
def payloadNoConsent : LinkPayload :=
  { term := some "Diabetes", category := some "medical", enText := none
    htText := none, enAudioId := some "x", htAudioId := some "y"
    annotator := none, consent := none }

/-- The scenario payload of the spec: required fields only, consent true,
no `enText`, `htText` or `annotator`. -/
def payloadDiabetes : LinkPayload :=
  { term := some "Diabetes", category := some "medical", enText := none
    htText := none, enAudioId := some "x", htAudioId := some "y"
    annotator := none, consent := some true }

/-- A store with one audio sidecar per language partition and one pair
file. -/
def sampleStore : Store :=
  { enDir := [⟨"a.json", 5, some "A"⟩]
    htDir := [⟨"b.json", 4, some "B"⟩]
    pairsDir := [⟨"p.pair.json", 9, some "P"⟩] }

/-- A flat `server.js` data directory with one audio sidecar and one pair
file. -/
def sampleFiles : List SFile :=
  [⟨"a.json", 5, some "A"⟩, ⟨"p.pair.json", 9, some "P"⟩]

/-! ### Helper lemmas -/

theorem listStartsWith_of_append (a b : List Char) :
    ∀ l : List Char, listStartsWith (a ++ b) l = true →
      listStartsWith a l = true := by
  induction a with
  | nil => intro l _; rfl
  | cons p ps ih =>
    intro l h
    cases l with
    | nil => simp [listStartsWith] at h
    | cons c cs =>
      simp only [List.cons_append, listStartsWith, Bool.and_eq_true] at h ⊢
      exact ⟨h.1, ih cs h.2⟩

theorem strEndsWith_pair_json (s : String) :
    strEndsWith s ".pair.json" = true → strEndsWith s ".json" = true := by
  intro h
  unfold strEndsWith at h ⊢
  have hsplit : (".pair.json" : String).data.reverse =
      (".json" : String).data.reverse ++ (".pair" : String).data.reverse := by
    decide
  rw [hsplit] at h
  exact listStartsWith_of_append _ _ _ h

theorem readBodyLimited_eq_none (maxSize : Nat) :
    ∀ (chunks : List Nat) (total : Nat), total ≤ maxSize →
      maxSize < total + chunks.sum →
      readBodyLimited maxSize total chunks = none := by
  intro chunks
  induction chunks with
  | nil =>
    intro total hle hlt
    simp at hlt
    omega
  | cons c rest ih =>
    intro total hle hlt
    simp only [readBodyLimited]
    by_cases h : total + c > maxSize
    · simp [h]
    · push_neg at h
      simp only [gt_iff_lt, not_lt.mpr h, if_false]
      exact ih (total + c) h (by simp only [List.sum_cons] at hlt; omega)

theorem readBodyLimited_eq_some (maxSize : Nat) :
    ∀ (chunks : List Nat) (total : Nat), total + chunks.sum ≤ maxSize →
      readBodyLimited maxSize total chunks = some (total + chunks.sum) := by
  intro chunks
  induction chunks with
  | nil => intro total h; simp [readBodyLimited]
  | cons c rest ih =>
    intro total h
    simp only [List.sum_cons] at h
    have hc : ¬ total + c > maxSize := by omega
    simp only [readBodyLimited, hc, if_false]
    rw [ih (total + c) (by omega)]
    simp only [List.sum_cons]
    congr 1
    omega

theorem sortByMtimeDesc_sorted {α : Type} (key : α → Nat) (l : List α) :
    (sortByMtimeDesc key l).Pairwise (fun a b => key b ≤ key a) := by
  haveI : IsTotal α (fun a b => key b ≤ key a) :=
    ⟨fun a b => le_total (key b) (key a)⟩
  haveI : IsTrans α (fun a b => key b ≤ key a) :=
    ⟨fun _ _ _ hab hbc => le_trans hbc hab⟩
  exact List.sorted_insertionSort _ l

theorem mem_sortByMtimeDesc {α : Type} (key : α → Nat) (l : List α) (x : α) :
    x ∈ sortByMtimeDesc key l ↔ x ∈ l :=
  List.mem_insertionSort _

theorem pipelineItems_length_le {α : Type} (key : α → Nat)
    (content : α → Option String) (l : List α) :
    (pipelineItems key content l).length ≤ 50 :=
  le_trans (List.length_filterMap_le _ _) (List.length_take_le _ _)

theorem pipelineItems_mem {α : Type} (key : α → Nat)
    (content : α → Option String) (l : List α) (r : String) :
    r ∈ pipelineItems key content l → ∃ a, a ∈ l ∧ content a = some r := by
  intro h
  unfold pipelineItems at h
  obtain ⟨a, ha, hc⟩ := List.mem_filterMap.mp h
  exact ⟨a, (mem_sortByMtimeDesc key l a).mp (List.mem_of_mem_take ha), hc⟩

theorem pipelineItems_nil {α : Type} (key : α → Nat)
    (content : α → Option String) :
    pipelineItems key content [] = [] := rfl

/-! ### Claim theorems -/

/-- Claim C5: `extFromContentType` is total over all strings (it is a Lean
`def`, hence never throws) and maps a content type by case-insensitive
substring matching, in order: `audio/webm → .webm`, `audio/wav → .wav`,
`audio/mpeg` or `audio/mp3 → .mp3`, `audio/ogg → .ogg`, anything else
`→ .bin`. -/
theorem claim_C5 (ct : String) :
    (strIncludes (jsToLower ct) "audio/webm" = true →
      extFromContentType ct = ".webm") ∧
    (strIncludes (jsToLower ct) "audio/webm" = false →
      strIncludes (jsToLower ct) "audio/wav" = true →
      extFromContentType ct = ".wav") ∧
    (strIncludes (jsToLower ct) "audio/webm" = false →
      strIncludes (jsToLower ct) "audio/wav" = false →
      (strIncludes (jsToLower ct) "audio/mpeg" = true ∨
        strIncludes (jsToLower ct) "audio/mp3" = true) →
      extFromContentType ct = ".mp3") ∧
    (strIncludes (jsToLower ct) "audio/webm" = false →
      strIncludes (jsToLower ct) "audio/wav" = false →
      strIncludes (jsToLower ct) "audio/mpeg" = false →
      strIncludes (jsToLower ct) "audio/mp3" = false →
      strIncludes (jsToLower ct) "audio/ogg" = true →
      extFromContentType ct = ".ogg") ∧
    (strIncludes (jsToLower ct) "audio/webm" = false →
      strIncludes (jsToLower ct) "audio/wav" = false →
      strIncludes (jsToLower ct) "audio/mpeg" = false →
      strIncludes (jsToLower ct) "audio/mp3" = false →
      strIncludes (jsToLower ct) "audio/ogg" = false →
      extFromContentType ct = ".bin") := by
  refine ⟨?_, ?_, ?_, ?_, ?_⟩
  · intro h1
    simp [extFromContentType, h1]
  · intro h1 h2
    simp [extFromContentType, h1, h2]
  · intro h1 h2 h3
    rcases h3 with h3 | h3 <;> simp [extFromContentType, h1, h2, h3]
  · intro h1 h2 h3 h4 h5
    simp [extFromContentType, h1, h2, h3, h4, h5]
  · intro h1 h2 h3 h4 h5
    simp [extFromContentType, h1, h2, h3, h4, h5]

/-- Witness for C5 at the concrete content type `"Audio/WAV; rate=16000"`:
the second case applies and yields `.wav`. -/
theorem claim_C5_witness :
    extFromContentType "Audio/WAV; rate=16000" = ".wav" :=
  (claim_C5 "Audio/WAV; rate=16000").2.1 (by decide) (by decide)

/-- Claim C8: linking `{term: "Diabetes", category: "medical",
enAudioId: "x", htAudioId: "y", consent: true}` with no `enText`, `htText`
or `annotator` succeeds with status 200, and the constructed pair record
has `en.text = "Diabetes"` (falling back to `term`), `ht.text = ""` and
`annotator = "anonymous"`, in both the enhanced server and `server.js`. -/
theorem claim_C8 :
    (linkServer payloadDiabetes "s0" "t0").status = 200 ∧
    ((linkServer payloadDiabetes "s0" "t0").record.map
      (fun r => r.en.text)) = some "Diabetes" ∧
    ((linkServer payloadDiabetes "s0" "t0").record.map
      (fun r => r.ht.text)) = some "" ∧
    ((linkServer payloadDiabetes "s0" "t0").record.map
      (fun r => r.annotator)) = some "anonymous" ∧
    (serverJsLink payloadDiabetes "s0" "t0").status = 200 ∧
    ((serverJsLink payloadDiabetes "s0" "t0").record.map
      (fun r => r.en.text)) = some "Diabetes" ∧
    ((serverJsLink payloadDiabetes "s0" "t0").record.map
      (fun r => r.ht.text)) = some "" ∧
    ((serverJsLink payloadDiabetes "s0" "t0").record.map
      (fun r => r.annotator)) = some "anonymous" := by
  decide

/-- Claim C10: every successful ingest stores the client IP and User-Agent
in the sidecar metadata record and returns them in the 200 response body
(the response spreads the metadata object), in both the enhanced server and
`server.js`. -/
theorem claim_C10 (req : AsrRequest) (id now : String) :
    (∀ m : AudioMeta, (asrServer req id now).meta = some m →
      m.ip = req.ip ∧ m.userAgent = jsOrDefault req.userAgent "" ∧
      ∃ wf ∈ (asrServer req id now).written,
        wf.name = id ++ ".json" ∧ wf.content = .audioMeta m) ∧
    (∀ sm : ServerAudioMeta, (serverJsAsr req id now).meta = some sm →
      sm.ip = req.ip ∧ sm.userAgent = jsOrDefault req.userAgent "" ∧
      ∃ ff ∈ (serverJsAsr req id now).written,
        ff.name = id ++ ".json" ∧ ff.content = .flatAudio sm) := by
  constructor
  · intro m hm
    cases hr : readBodyLimited MAX_FILE_SIZE 0 req.chunks with
    | none => simp [asrServer, hr] at hm
    | some n =>
      simp only [asrServer, hr, Option.some.injEq] at hm
      subst hm
      refine ⟨rfl, rfl, ?_⟩
      simp only [asrServer, hr]
      exact ⟨_, List.mem_cons_of_mem _ (List.mem_singleton_self _), rfl, rfl⟩
  · intro sm hsm
    simp only [serverJsAsr, Option.some.injEq] at hsm
    subst hsm
    refine ⟨rfl, rfl, ?_⟩
    simp only [serverJsAsr]
    exact ⟨_, List.mem_cons_of_mem _ (List.mem_singleton_self _), rfl, rfl⟩

/-- Witness for C10 at the concrete request `reqFr`: the stored and
returned metadata carries the request's IP and User-Agent. -/
theorem claim_C10_witness :
    ∃ m : AudioMeta, (asrServer reqFr "id9" "t9").meta = some m ∧
      m.ip = reqFr.ip ∧ m.userAgent = jsOrDefault reqFr.userAgent "" ∧
      ∃ wf ∈ (asrServer reqFr "id9" "t9").written,
        wf.name = "id9" ++ ".json" ∧ wf.content = .audioMeta m := by
  refine ⟨{ kind := "audio", id := "id9", lang := "en-US", createdAt := "t9"
            ip := "203.0.113.7", userAgent := "TestAgent/1.0"
            contentType := "audio/webm", bytes := 3, audioFile := "id9.webm"
            transcript := "Hello World (ASR stub)", codec := "opus"
            sr := none, duration_s := none, domain := [] }, by decide, ?_⟩
  exact (claim_C10 reqFr "id9" "t9").1 _ (by decide)

/-- Claim C6: for every state of the data store, listing with `kind=audio`
gathers only audio sidecars (language partitions, plain `.json` names) and
never pair records; `kind=pair` gathers only pair files from the pairs
partition; and `kind=all` gathers exactly the union of both selections.
Stated for the enhanced server's partitioned store and for `server.js`'s
flat directory. -/
theorem claim_C6 (store : Store) (files : List SFile) :
    (∀ pf ∈ collectFiles store (some "audio"),
      (pf.1 = Partition.en ∨ pf.1 = Partition.ht) ∧
        strEndsWith pf.2.name ".json" = true ∧ pf.1 ≠ Partition.pairs) ∧
    (∀ pf ∈ collectFiles store (some "pair"),
      pf.1 = Partition.pairs ∧ strEndsWith pf.2.name ".pair.json" = true) ∧
    (collectFiles store (some "all") =
      collectFiles store (some "audio") ++ collectFiles store (some "pair")) ∧
    (∀ f ∈ serverJsSelect files "audio",
      strEndsWith f.name ".json" = true ∧
        strEndsWith f.name ".pair.json" = false) ∧
    (∀ f ∈ serverJsSelect files "pair",
      strEndsWith f.name ".pair.json" = true) ∧
    (∀ f, f ∈ serverJsSelect files "all" ↔
      f ∈ serverJsSelect files "audio" ∨ f ∈ serverJsSelect files "pair") := by
  have hA : collectFiles store (some "audio") =
      (store.enDir.filter (fun f => strEndsWith f.name ".json")).map
          (fun f => (Partition.en, f)) ++
        (store.htDir.filter (fun f => strEndsWith f.name ".json")).map
          (fun f => (Partition.ht, f)) := by
    show collectFor store (kindNorm (some "audio")) = _
    rw [show kindNorm (some "audio") = "audio" from by decide]
    unfold collectFor
    rw [show (("audio" : String) == "audio" || ("audio" : String) == "all")
          = true from by decide,
      show (("audio" : String) == "pair" || ("audio" : String) == "all")
          = false from by decide]
    simp
  have hP : collectFiles store (some "pair") =
      (store.pairsDir.filter (fun f => strEndsWith f.name ".pair.json")).map
        (fun f => (Partition.pairs, f)) := by
    show collectFor store (kindNorm (some "pair")) = _
    rw [show kindNorm (some "pair") = "pair" from by decide]
    rfl
  have hAll : collectFiles store (some "all") =
      ((store.enDir.filter (fun f => strEndsWith f.name ".json")).map
          (fun f => (Partition.en, f)) ++
        (store.htDir.filter (fun f => strEndsWith f.name ".json")).map
          (fun f => (Partition.ht, f))) ++
        (store.pairsDir.filter (fun f => strEndsWith f.name ".pair.json")).map
          (fun f => (Partition.pairs, f)) := by
    show collectFor store (kindNorm (some "all")) = _
    rw [show kindNorm (some "all") = "all" from by decide]
    rfl
  have hsA : serverJsSelect files "audio" = files.filter
      (fun f => strEndsWith f.name ".json" &&
        !strEndsWith f.name ".pair.json") := rfl
  have hsP : serverJsSelect files "pair" = files.filter
      (fun f => strEndsWith f.name ".pair.json") := rfl
  have hsAll : serverJsSelect files "all" = files.filter
      (fun f => strEndsWith f.name ".json") := rfl
  refine ⟨?_, ?_, ?_, ?_, ?_, ?_⟩
  · intro pf hpf
    rw [hA] at hpf
    rcases List.mem_append.mp hpf with h | h <;>
      obtain ⟨f, hf, rfl⟩ := List.mem_map.mp h
    · exact ⟨Or.inl rfl, (List.mem_filter.mp hf).2, by simp⟩
    · exact ⟨Or.inr rfl, (List.mem_filter.mp hf).2, by simp⟩
  · intro pf hpf
    rw [hP] at hpf
    obtain ⟨f, hf, rfl⟩ := List.mem_map.mp hpf
    exact ⟨rfl, (List.mem_filter.mp hf).2⟩
  · rw [hAll, hA, hP]
  · intro f hf
    rw [hsA] at hf
    have h := (List.mem_filter.mp hf).2
    simp only [Bool.and_eq_true, Bool.not_eq_true'] at h
    exact h
  · intro f hf
    rw [hsP] at hf
    exact (List.mem_filter.mp hf).2
  · intro f
    rw [hsA, hsP, hsAll]
    simp only [List.mem_filter, Bool.and_eq_true, Bool.not_eq_true']
    constructor
    · rintro ⟨hf, hjson⟩
      by_cases hp : strEndsWith f.name ".pair.json" = true
      · exact Or.inr ⟨hf, hp⟩
      · exact Or.inl ⟨hf, hjson, Bool.not_eq_true _ ▸ (by simpa using hp)⟩
    · rintro (⟨hf, hjson, _⟩ | ⟨hf, hpair⟩)
      · exact ⟨hf, hjson⟩
      · exact ⟨hf, strEndsWith_pair_json _ hpair⟩

/-- Witness for C6 at a concrete store and flat directory with one audio
sidecar per partition and one pair file. -/
theorem claim_C6_witness :
    collectFiles sampleStore (some "all") =
      collectFiles sampleStore (some "audio") ++
        collectFiles sampleStore (some "pair") ∧
    (((Partition.en, (⟨"a.json", 5, some "A"⟩ : SFile)) :
        Partition × SFile).1 = Partition.en ∨
      ((Partition.en, (⟨"a.json", 5, some "A"⟩ : SFile)) :
        Partition × SFile).1 = Partition.ht) ∧
    strEndsWith "a.json" ".json" = true ∧
    ((Partition.en, (⟨"a.json", 5, some "A"⟩ : SFile)) :
      Partition × SFile).1 ≠ Partition.pairs :=
  ⟨(claim_C6 sampleStore sampleFiles).2.2.1,
    (claim_C6 sampleStore sampleFiles).1
      (Partition.en, ⟨"a.json", 5, some "A"⟩) (by decide)⟩

/-- Claim C7: both listers sort the selected sidecar files descending by
modification time, truncate to the most recent 50, silently discard files
that fail to parse (every returned item is the parse of a selected file,
and parse failures never abort the listing, which always answers 200 `ok`),
and return an empty `items` list rather than an error when nothing is
selected. -/
theorem claim_C7 (store : Store) (files : List SFile)
    (kindRaw : Option String) :
    (sortByMtimeDesc (fun pf => pf.2.mtime)
        (collectFiles store kindRaw)).Pairwise
      (fun a b => b.2.mtime ≤ a.2.mtime) ∧
    (listSamples store kindRaw).items.length ≤ 50 ∧
    (∀ r ∈ (listSamples store kindRaw).items,
      ∃ pf, pf ∈ collectFiles store kindRaw ∧ pf.2.content = some r) ∧
    (listSamples store kindRaw).status = 200 ∧
    (listSamples store kindRaw).ok = true ∧
    (collectFiles store kindRaw = [] →
      (listSamples store kindRaw).items = []) ∧
    (sortByMtimeDesc (fun f => f.mtime)
        (serverJsSelect files (kindNorm kindRaw))).Pairwise
      (fun a b => b.mtime ≤ a.mtime) ∧
    (serverJsList files kindRaw).items.length ≤ 50 ∧
    (∀ r ∈ (serverJsList files kindRaw).items,
      ∃ f, f ∈ serverJsSelect files (kindNorm kindRaw) ∧
        f.content = some r) ∧
    (serverJsList files kindRaw).status = 200 ∧
    (serverJsList files kindRaw).ok = true ∧
    (serverJsSelect files (kindNorm kindRaw) = [] →
      (serverJsList files kindRaw).items = []) := by
  refine ⟨sortByMtimeDesc_sorted _ _, pipelineItems_length_le _ _ _,
    ?_, rfl, rfl, ?_,
    sortByMtimeDesc_sorted _ _, pipelineItems_length_le _ _ _,
    ?_, rfl, rfl, ?_⟩
  · intro r hr
    exact pipelineItems_mem _ _ _ r hr
  · intro h
    show pipelineItems _ _ (collectFiles store kindRaw) = []
    rw [h]
    rfl
  · intro r hr
    exact pipelineItems_mem _ _ _ r hr
  · intro h
    show pipelineItems _ _ (serverJsSelect files (kindNorm kindRaw)) = []
    rw [h]
    rfl

/-- Witness for C7: at the concrete store, the parsed item `"A"` of an
audio listing comes from a selected sidecar, and a selection that gathers
nothing yields empty items with a 200 `ok` response. -/
theorem claim_C7_witness :
    (∃ pf, pf ∈ collectFiles sampleStore (some "audio") ∧
      pf.2.content = some "A") ∧
    (listSamples sampleStore (some "bogus")).items = [] ∧
    (listSamples sampleStore (some "bogus")).status = 200 :=
  ⟨(claim_C7 sampleStore sampleFiles (some "audio")).2.2.1 "A" (by decide),
    (claim_C7 sampleStore sampleFiles (some "bogus")).2.2.2.2.2.1 (by decide),
    (claim_C7 sampleStore sampleFiles (some "bogus")).2.2.2.1⟩

/-- Counterexample to claim C1 as stated: a `POST /api/asr/fr` request to
the enhanced server's ingest handler does not return 400 and does not
perform zero writes — it answers 200 and writes two files. -/
theorem claim_C1_counterexample :
    (asrServer reqFr "id0" "t0").status = 200 ∧
    (asrServer reqFr "id0" "t0").status ≠ 400 ∧
    (asrServer reqFr "id0" "t0").written.length = 2 := by
  decide

/-- Claim C1, amended: the server's ingest handler performs no language
validation — any `lang` segment that is not `ht` (nor `en`) after
lower-casing is coerced to the `en` partition and the ingest succeeds with
status 200, writing the audio blob and sidecar there; only the Netlify
`asr-upload` function rejects an unsupported language with 400, and it
performs zero filesystem writes. -/
theorem claim_C1_amended (lang : String) (chunks : List Nat)
    (ct : Option String) (ip : String) (ua : Option String) (id now : String)
    (h1 : jsToLower lang ≠ "en") (h2 : jsToLower lang ≠ "ht")
    (hsize : chunks.sum ≤ MAX_FILE_SIZE) :
    (asrServer ⟨lang, chunks, ct, ip, ua⟩ id now).status = 200 ∧
    (asrServer ⟨lang, chunks, ct, ip, ua⟩ id now).written.length = 2 ∧
    (∀ wf ∈ (asrServer ⟨lang, chunks, ct, ip, ua⟩ id now).written,
      wf.part = Partition.en) ∧
    asrUpload lang = ⟨400, false, []⟩ := by
  have hbody := readBodyLimited_eq_some MAX_FILE_SIZE chunks 0
    (by simpa using hsize)
  have hlang : (jsToLower (jsOrDefault (some lang) "en") == "ht") = false := by
    cases hfe : jsFalsy lang with
    | true =>
      simp only [jsOrDefault, hfe, if_true]
      decide
    | false =>
      simp only [jsOrDefault, hfe, if_false, Bool.false_eq_true]
      exact beq_eq_false_iff_ne.mpr h2
  have hne : lang ≠ "en" := fun he => h1 (by rw [he]; decide)
  have hnh : lang ≠ "ht" := fun he => h2 (by rw [he]; decide)
  have hcond : (lang == "en" || lang == "ht") = false := by
    rw [Bool.or_eq_false_iff]
    exact ⟨beq_eq_false_iff_ne.mpr hne, beq_eq_false_iff_ne.mpr hnh⟩
  refine ⟨?_, ?_, ?_, ?_⟩
  · simp [asrServer, hbody, hlang]
  · simp [asrServer, hbody, hlang]
  · intro wf hwf
    simp only [asrServer, hbody, hlang] at hwf
    simp only [Bool.false_eq_true, if_false] at hwf
    rcases List.mem_cons.mp hwf with rfl | hwf
    · rfl
    · rcases List.mem_singleton.mp hwf with rfl
      rfl
  · simp [asrUpload, hcond]

/-- Witness for the amended C1 at the concrete unsupported language
`"fr"`. -/
theorem claim_C1_amended_witness :
    (asrServer reqFr "id1" "t1").status = 200 ∧
    (asrServer reqFr "id1" "t1").written.length = 2 ∧
    (∀ wf ∈ (asrServer reqFr "id1" "t1").written,
      wf.part = Partition.en) ∧
    asrUpload "fr" = ⟨400, false, []⟩ :=
  claim_C1_amended "fr" [3] (some "audio/webm") "203.0.113.7"
    (some "TestAgent/1.0") "id1" "t1" (by decide) (by decide) (by decide)

/-- Counterexample to claim C2 as stated: the enhanced server's link
handler, given a request missing only `category` with consent true,
answers 400 but with a single generic error — its body carries no
`missingFields` enumeration at all. -/
theorem claim_C2_counterexample :
    (linkServer payloadMissingCategory "s0" "t0").status = 400 ∧
    (linkServer payloadMissingCategory "s0" "t0").missingFields = none ∧
    (linkServer payloadMissingCategory "s0" "t0").missingFields ≠
      some ["category"] := by
  decide

/-- Claim C2, amended: only the Netlify `samples-link` function enumerates
the missing required fields — its 400 body lists exactly the falsy ones
among `term`, `category`, `enAudioId`, `htAudioId` (a request missing only
`category` gets `missingFields = ["category"]`) — while the enhanced
server's handler returns a generic 400 with no `missingFields` list. -/
theorem claim_C2_amended (p : LinkPayload) (id now : String)
    (hconsent : jsTruthyBool p.consent = true)
    (hmiss : missingFieldsOf p ≠ []) :
    (linkNetlify p id now).status = 400 ∧
    (linkNetlify p id now).missingFields = some (missingFieldsOf p) ∧
    (∀ s, s ∈ missingFieldsOf p ↔
      ((s = "term" ∧ jsFalsyOpt p.term = true) ∨
        (s = "category" ∧ jsFalsyOpt p.category = true) ∨
        (s = "enAudioId" ∧ jsFalsyOpt p.enAudioId = true) ∨
        (s = "htAudioId" ∧ jsFalsyOpt p.htAudioId = true))) ∧
    (linkServer p id now).status = 400 ∧
    (linkServer p id now).missingFields = none := by
  cases hT : jsFalsyOpt p.term <;> cases hC : jsFalsyOpt p.category <;>
    cases hE : jsFalsyOpt p.enAudioId <;> cases hH : jsFalsyOpt p.htAudioId <;>
    first
      | (simp [missingFieldsOf, hT, hC, hE, hH] at hmiss; done)
      | (refine ⟨?_, ?_, ?_, ?_, ?_⟩ <;>
          simp [linkNetlify, linkServer, missingFieldsOf, hT, hC, hE, hH,
            hconsent])

/-- Witness for the amended C2 at the concrete payload missing only
`category`: the Netlify function enumerates exactly `["category"]`, the
server does not enumerate. -/
theorem claim_C2_amended_witness :
    (linkNetlify payloadMissingCategory "s1" "t1").status = 400 ∧
    (linkNetlify payloadMissingCategory "s1" "t1").missingFields =
      some ["category"] ∧
    ("category" ∈ missingFieldsOf payloadMissingCategory ∧
      "term" ∉ missingFieldsOf payloadMissingCategory) ∧
    (linkServer payloadMissingCategory "s1" "t1").status = 400 ∧
    (linkServer payloadMissingCategory "s1" "t1").missingFields = none := by
  have h := claim_C2_amended payloadMissingCategory "s1" "t1"
    (by decide) (by decide)
  refine ⟨h.1, h.2.1, ⟨?_, ?_⟩, h.2.2.2.1, h.2.2.2.2⟩
  · exact (h.2.2.1 "category").mpr (Or.inr (Or.inl ⟨rfl, by decide⟩))
  · intro hmem
    rcases (h.2.2.1 "term").mp hmem with ⟨_, hfal⟩ | ⟨heq, _⟩ | ⟨heq, _⟩
      | ⟨heq, _⟩
    · exact absurd hfal (by decide)
    · exact absurd heq (by decide)
    · exact absurd heq (by decide)
    · exact absurd heq (by decide)

/-- Counterexample to claim C3 as stated: `server.js`'s link handler, given
a payload with all four required fields valid and `consent` absent,
succeeds with 200 and writes a pair record file. -/
theorem claim_C3_counterexample :
    (serverJsLink payloadNoConsent "s0" "t0").status = 200 ∧
    (serverJsLink payloadNoConsent "s0" "t0").written ≠ [] := by
  decide

/-- Claim C3, amended: in `samples-link.js` — both the Netlify function and
the enhanced server — a link request whose consent is false or absent fails
with 400 and writes nothing, regardless of the other fields; but
`server.js`'s link handler never inspects consent and, when the four
required fields are valid, succeeds with 200 and writes a pair record. -/
theorem claim_C3_amended (p : LinkPayload) (id now : String)
    (hconsent : jsTruthyBool p.consent = false) :
    (linkServer p id now).status = 400 ∧
    (linkServer p id now).written = [] ∧
    (linkNetlify p id now).status = 400 ∧
    (linkNetlify p id now).written = [] ∧
    (jsFalsyOpt p.term = false → jsFalsyOpt p.category = false →
      jsFalsyOpt p.enAudioId = false → jsFalsyOpt p.htAudioId = false →
      (serverJsLink p id now).status = 200 ∧
      (serverJsLink p id now).written ≠ []) := by
  refine ⟨?_, ?_, ?_, ?_, ?_⟩
  · simp [linkServer, hconsent]
  · simp [linkServer, hconsent]
  · simp [linkNetlify, hconsent]
  · simp [linkNetlify, hconsent]
  · intro h1 h2 h3 h4
    simp [serverJsLink, h1, h2, h3, h4]

/-- Witness for the amended C3 at the concrete consent-free payload. -/
theorem claim_C3_amended_witness :
    (linkServer payloadNoConsent "s1" "t1").status = 400 ∧
    (linkServer payloadNoConsent "s1" "t1").written = [] ∧
    (linkNetlify payloadNoConsent "s1" "t1").status = 400 ∧
    (serverJsLink payloadNoConsent "s1" "t1").status = 200 ∧
    (serverJsLink payloadNoConsent "s1" "t1").written ≠ [] :=
  ⟨(claim_C3_amended payloadNoConsent "s1" "t1" (by decide)).1,
    (claim_C3_amended payloadNoConsent "s1" "t1" (by decide)).2.1,
    (claim_C3_amended payloadNoConsent "s1" "t1" (by decide)).2.2.1,
    ((claim_C3_amended payloadNoConsent "s1" "t1" (by decide)).2.2.2.2
      (by decide) (by decide) (by decide) (by decide)).1,
    ((claim_C3_amended payloadNoConsent "s1" "t1" (by decide)).2.2.2.2
      (by decide) (by decide) (by decide) (by decide)).2⟩

/-- Counterexample to claim C4 as stated: `server.js` reads request bodies
with no size cap, so an ingest whose body exceeds the configured 10 MiB
maximum still succeeds with 200 and writes both files in full. -/
theorem claim_C4_counterexample :
    MAX_FILE_SIZE < reqOversized.chunks.sum ∧
    (serverJsAsr reqOversized "id0" "t0").status = 200 ∧
    (serverJsAsr reqOversized "id0" "t0").written.length = 2 := by
  decide

/-- Claim C4, amended: in the enhanced server an ingest body exceeding
`MAX_FILE_SIZE` makes `readBody` throw before any write, so the request
fails (500, surfaced by the handler's catch) with neither the audio blob
nor the sidecar created; `server.js`, however, enforces no size cap and
writes the oversized payload in full with a 200 response. -/
theorem claim_C4_amended (lang : String) (chunks : List Nat)
    (ct : Option String) (ip : String) (ua : Option String) (id now : String)
    (h : MAX_FILE_SIZE < chunks.sum) :
    (asrServer ⟨lang, chunks, ct, ip, ua⟩ id now).status = 500 ∧
    (asrServer ⟨lang, chunks, ct, ip, ua⟩ id now).written = [] ∧
    (asrServer ⟨lang, chunks, ct, ip, ua⟩ id now).meta = none ∧
    (serverJsAsr ⟨lang, chunks, ct, ip, ua⟩ id now).status = 200 ∧
    (serverJsAsr ⟨lang, chunks, ct, ip, ua⟩ id now).written.length = 2 := by
  have hb := readBodyLimited_eq_none MAX_FILE_SIZE chunks 0
    (Nat.zero_le _) (by simpa using h)
  refine ⟨?_, ?_, ?_, rfl, rfl⟩ <;> simp [asrServer, hb]

/-- Witness for the amended C4 at the concrete oversized request. -/
theorem claim_C4_amended_witness :
    (asrServer reqOversized "id1" "t1").status = 500 ∧
    (asrServer reqOversized "id1" "t1").written = [] ∧
    (asrServer reqOversized "id1" "t1").meta = none ∧
    (serverJsAsr reqOversized "id1" "t1").status = 200 ∧
    (serverJsAsr reqOversized "id1" "t1").written.length = 2 :=
  claim_C4_amended "en" [MAX_FILE_SIZE + 1] (some "audio/wav")
    "203.0.113.7" none "id1" "t1" (by decide)

/-- Counterexample to claim C9 as stated: on the enhanced server an
unrecognised `kind=bogus` is not treated as `all` — it selects nothing and
returns empty items, while `kind=all` returns the stored records. -/
theorem claim_C9_counterexample :
    (listSamples sampleStore (some "bogus")).items = [] ∧
    (listSamples sampleStore (some "all")).items = ["P", "A", "B"] ∧
    (listSamples sampleStore (some "bogus")).items ≠
      (listSamples sampleStore (some "all")).items := by
  decide

/-- Claim C9, amended: the two listers disagree on unrecognised `kind`
values: `server.js` treats any unrecognised kind exactly like `all`, while
the enhanced server's lister matches it against neither branch, gathers no
files and returns an empty items list. -/
theorem claim_C9_amended (store : Store) (files : List SFile)
    (kindRaw : Option String)
    (h1 : kindNorm kindRaw ≠ "audio") (h2 : kindNorm kindRaw ≠ "pair")
    (h3 : kindNorm kindRaw ≠ "all") :
    collectFiles store kindRaw = [] ∧
    (listSamples store kindRaw).items = [] ∧
    (serverJsList files kindRaw).items =
      (serverJsList files (some "all")).items := by
  have hc1 : (kindNorm kindRaw == "audio" || kindNorm kindRaw == "all")
      = false := by
    rw [Bool.or_eq_false_iff]
    exact ⟨beq_eq_false_iff_ne.mpr h1, beq_eq_false_iff_ne.mpr h3⟩
  have hc2 : (kindNorm kindRaw == "pair" || kindNorm kindRaw == "all")
      = false := by
    rw [Bool.or_eq_false_iff]
    exact ⟨beq_eq_false_iff_ne.mpr h2, beq_eq_false_iff_ne.mpr h3⟩
  have hcol : collectFiles store kindRaw = [] := by
    unfold collectFiles collectFor
    rw [hc1, hc2]
    simp
  have hsel : serverJsSelect files (kindNorm kindRaw) =
      serverJsSelect files "all" := by
    unfold serverJsSelect
    refine List.filter_congr ?_
    intro f _
    rw [show (kindNorm kindRaw == "audio") = false from
        beq_eq_false_iff_ne.mpr h1,
      show (kindNorm kindRaw == "pair") = false from
        beq_eq_false_iff_ne.mpr h2]
    simp
  refine ⟨hcol, ?_, ?_⟩
  · show pipelineItems _ _ (collectFiles store kindRaw) = []
    rw [hcol]
    rfl
  · show pipelineItems _ _ (serverJsSelect files (kindNorm kindRaw)) = _
    rw [hsel]
    rfl

/-- Witness for the amended C9 at the concrete unrecognised kind
`bogus`. -/
theorem claim_C9_amended_witness :
    collectFiles sampleStore (some "bogus") = [] ∧
    (listSamples sampleStore (some "bogus")).items = [] ∧
    (serverJsList sampleFiles (some "bogus")).items =
      (serverJsList sampleFiles (some "all")).items :=
  claim_C9_amended sampleStore sampleFiles (some "bogus")
    (by decide) (by decide) (by decide)

end TranslatorVoice
